import Mathlib

set_option linter.unusedSectionVars false

/-!
Verification of the structural-equality comparator for weighted finite-state
automata (`rayuela/fsa/fsa_testing.py`).

The comparator takes two automaton objects and produces a report of
structural differences, organised by category (semiring, alphabet, states,
state weights, arcs, arc weights).  We embed the comparator shallowly:

* Python `dict`s become association lists with a fail-fast (`Option`-valued)
  lookup: the spec's input contract states that the λ/ρ weight mappings have
  "no implicit default when a key is absent", so a missing key is an error
  that propagates, turning the whole comparison into `none`.
* Python `set`s become `Finset`s where only equality/difference is needed,
  and duplicate-free lists where iteration order matters for message
  construction.
* Each f-string message becomes a constructor of an inductive `Msg` type
  carrying exactly the data interpolated into the corresponding Python
  string.
-/

namespace FsaTesting

/-- Alphabet symbols: the distinguished epsilon, or a named symbol (the
`Sym` wrapper in `rayuela.base.symbol`). -/
inductive Symbol where
  | eps : Symbol
  | sym : String → Symbol
deriving DecidableEq

/-- Arc labels: a single symbol on an acceptor arc, or an ordered
input/output pair on a transducer arc (`(a, b)` in `_arcs`). -/
inductive Label (Sy : Type) where
  | single : Sy → Label Sy
  | pair : Sy → Sy → Label Sy
deriving DecidableEq

/-- Semiring identities (`fsa.R`): only their equality is relevant to the
comparator, so they are modelled as opaque tags. -/
inductive SemiringId where
  | boolean : SemiringId
  | real : SemiringId
deriving DecidableEq

/-- Lookup in a Python `dict` modelled as an association list.  Returns
`none` for an absent key: per the spec's input contract there is no
implicit default, and a bad access fails fast. -/
def dictLookup {α β : Type} [DecidableEq α] : List (α × β) → α → Option β
  | [], _ => none
  | (a, b) :: rest, k => if a = k then some b else dictLookup rest k

/-- Modelled from the spec: the automaton classes `FSA`/`FST`
(`rayuela.fsa.fsa`, `rayuela.fsa.fst`) are external to the comparison core
(spec §1/§6).  Fields follow spec §3: semiring identity `R`, input alphabet
`Sigma`, the output alphabet `Omega` present exactly on transducers (the
capability predicate of §9 replacing `isinstance(_, FST)`), state set `Q`
(kept as a duplicate-free iteration sequence), initial/final weight
mappings `lam` (λ) and `ρ` with no implicit default, and the nested
transition table `δ : source → label → target → weight`. -/
structure FSA (SR St Sy W : Type) where
  R : SR
  Sigma : Finset Sy
  Omega : Option (Finset Sy)
  Q : List St
  lam : List (St × W)
  ρ : List (St × W)
  δ : List (St × List (Label Sy × List (St × W)))
deriving DecidableEq

/-- The closed set of mismatch categories, in the check order of
`fsa_structural_equality_report`. -/
inductive Category where
  | semiring : Category
  | alphabet : Category
  | states : Category
  | state_weights : Category
  | arcs : Category
  | arc_weights : Category
deriving DecidableEq

/-- One report message.  Each constructor corresponds to one f-string in
`fsa_structural_equality_report` and carries exactly the data interpolated
into that string.  Sets printed inside a message are carried as `Finset`s
(Python prints them in an unspecified order). -/
inductive Msg (SR St Sy W : Type) where
  | semiringMismatch : SR → SR → Msg SR St Sy W
  | inputAlphabetMismatch : Finset Sy → Finset Sy → Msg SR St Sy W
  | outputAlphabetMismatch : Finset Sy → Finset Sy → Msg SR St Sy W
  | statesIn1Not2 : Finset St → Msg SR St Sy W
  | statesIn2Not1 : Finset St → Msg SR St Sy W
  | initialWeightMismatch : St → W → W → Msg SR St Sy W
  | finalWeightMismatch : St → W → W → Msg SR St Sy W
  | missingArcs1 : Finset (St × Label Sy × St) → Msg SR St Sy W
  | missingArcs2 : Finset (St × Label Sy × St) → Msg SR St Sy W
  | arcWeightMismatch : St × Label Sy × St → W → W → Msg SR St Sy W
deriving DecidableEq

/-- The report object `_FSAStructuralEqualityReport`: `report_sections` is
the insertion-ordered category → messages mapping (a `defaultdict(list)`
that holds a key exactly when at least one message was appended), plus the
cosmetic `title` and `maxwidth` fields. -/
structure Report (SR St Sy W : Type) where
  report_sections : List (Category × List (Msg SR St Sy W))
  title : Option String
  maxwidth : Nat
deriving DecidableEq

/-- `structurally_equal`: `len(self.report_sections) == 0`. -/
def Report.structurally_equal {SR St Sy W : Type} (r : Report SR St Sy W) : Bool :=
  r.report_sections.length == 0

variable {SR St Sy W : Type} [DecidableEq SR] [DecidableEq St] [DecidableEq Sy]
variable [DecidableEq W]

/-- The unweighted identity `(i, ab, j)` of an arc quadruple — the tuple
destructuring `i, ab, j, _` / `*arc1, w1` used by the source helpers. -/
def arcId (a : St × Label Sy × St × W) : St × Label Sy × St :=
  (a.1, a.2.1, a.2.2.1)

/-- The weight of an arc quadruple — the `w1` of the `*arc1, w1`
destructuring. -/
def arcW (a : St × Label Sy × St × W) : W :=
  a.2.2.2

/-- `_arcs`: flattens the nested transition table into the set of
quadruples `(i, ab, j, w)`.  The Python function builds a `set`; we build
the flattened list and `dedup` it, giving the same set semantics with one
admissible iteration order. -/
def _arcs (fst : FSA SR St Sy W) : List (St × Label Sy × St × W) :=
  (fst.δ.flatMap fun iG =>
    iG.2.flatMap fun abG =>
      abG.2.map fun jw => (iG.1, abG.1, jw.1, jw.2)).dedup

/-- The inner `_unweighted` helper: projects a set of arcs to the set of
unweighted identities `(i, ab, j)`. -/
def _unweighted (arcs : List (St × Label Sy × St × W)) : Finset (St × Label Sy × St) :=
  (arcs.map arcId).toFinset

/-- The inner `_arc_weight_mismatch` helper: the nested set comprehension
over `arcs1 × arcs2` keeping pairs with equal unweighted identity and
unequal weights, producing `(identity, w1, w2)` triples. -/
def _arc_weight_mismatch (arcs1 arcs2 : List (St × Label Sy × St × W)) :
    List ((St × Label Sy × St) × W × W) :=
  (arcs1.flatMap fun a1 =>
    arcs2.filterMap fun a2 =>
      if arcId a1 = arcId a2 ∧ arcW a1 ≠ arcW a2
      then some (arcId a1, arcW a1, arcW a2)
      else none).dedup

/-- Check 1 (`fsa_testing.py` lines 117-118): one "semiring" message when
the semiring identities differ. -/
def semiringMsgs (fsa1 fsa2 : FSA SR St Sy W) : List (Msg SR St Sy W) :=
  if fsa1.R ≠ fsa2.R then [Msg.semiringMismatch fsa1.R fsa2.R] else []

/-- Check 2 (lines 121-128): an "alphabet" message when the input alphabets
differ, and a second independent one when both operands are transducers
(both expose an output alphabet) and the output alphabets differ. -/
def alphabetMsgs (fsa1 fsa2 : FSA SR St Sy W) : List (Msg SR St Sy W) :=
  (if fsa1.Sigma ≠ fsa2.Sigma
   then [Msg.inputAlphabetMismatch fsa1.Sigma fsa2.Sigma] else []) ++
  (match fsa1.Omega, fsa2.Omega with
   | some o1, some o2 =>
     if o1 ≠ o2 then [Msg.outputAlphabetMismatch o1 o2] else []
   | _, _ => [])

/-- Check 3 (lines 133-142): directional state-set differences; each
non-empty difference emits one "states" message carrying the missing set. -/
def statesMsgs (fsa1 fsa2 : FSA SR St Sy W) : List (Msg SR St Sy W) :=
  (if fsa1.Q.toFinset \ fsa2.Q.toFinset ≠ ∅
   then [Msg.statesIn1Not2 (fsa1.Q.toFinset \ fsa2.Q.toFinset)] else []) ++
  (if fsa2.Q.toFinset \ fsa1.Q.toFinset ≠ ∅
   then [Msg.statesIn2Not1 (fsa2.Q.toFinset \ fsa1.Q.toFinset)] else [])

/-- Check 4 (lines 146-154): the `for q in fsa1.Q` loop.  For each state of
the FIRST operand's state set, both λ entries and both ρ entries are looked
up; a missing entry aborts the whole comparison (`none`), otherwise each
differing role appends one "state_weights" message. -/
def stateWeightMsgs (fsa1 fsa2 : FSA SR St Sy W) :
    List St → Option (List (Msg SR St Sy W))
  | [] => some []
  | q :: qs =>
    (dictLookup fsa1.lam q).bind fun l1 =>
      (dictLookup fsa2.lam q).bind fun l2 =>
        (dictLookup fsa1.ρ q).bind fun r1 =>
          (dictLookup fsa2.ρ q).bind fun r2 =>
            (stateWeightMsgs fsa1 fsa2 qs).map fun rest =>
              (if l1 ≠ l2 then [Msg.initialWeightMismatch q l1 l2] else []) ++
              (if r1 ≠ r2 then [Msg.finalWeightMismatch q r1 r2] else []) ++ rest

/-- Check 5 (lines 161-172): directional differences of the unweighted arc
identity sets; `missing_arcs1 = unweighted(arcs2) - unweighted(arcs1)` is
reported first ("Missing arcs in FST1"), then `missing_arcs2`. -/
def arcsMsgs (fsa1 fsa2 : FSA SR St Sy W) : List (Msg SR St Sy W) :=
  (if _unweighted (_arcs fsa2) \ _unweighted (_arcs fsa1) ≠ ∅
   then [Msg.missingArcs1 (_unweighted (_arcs fsa2) \ _unweighted (_arcs fsa1))] else []) ++
  (if _unweighted (_arcs fsa1) \ _unweighted (_arcs fsa2) ≠ ∅
   then [Msg.missingArcs2 (_unweighted (_arcs fsa1) \ _unweighted (_arcs fsa2))] else [])

/-- Check 6 (lines 174-186): one "arc_weights" message per element of the
mismatch set. -/
def arcWeightsMsgs (fsa1 fsa2 : FSA SR St Sy W) : List (Msg SR St Sy W) :=
  (_arc_weight_mismatch (_arcs fsa1) (_arcs fsa2)).map fun m =>
    Msg.arcWeightMismatch m.1 m.2.1 m.2.2

/-- `fsa_structural_equality_report` (lines 89-188).  All six checks run;
the state-weight loop's lookups may fail (missing λ/ρ entry), in which case
the error propagates and no report is produced.  The final
`report_sections` keeps, in check order, exactly the categories that
received at least one message — reproducing the `defaultdict`'s key set and
insertion order. -/
def fsa_structural_equality_report (fsa1 fsa2 : FSA SR St Sy W)
    (title : Option String) : Option (Report SR St Sy W) :=
  (stateWeightMsgs fsa1 fsa2 fsa1.Q).map fun sw =>
    { report_sections :=
        ([(Category.semiring, semiringMsgs fsa1 fsa2),
          (Category.alphabet, alphabetMsgs fsa1 fsa2),
          (Category.states, statesMsgs fsa1 fsa2),
          (Category.state_weights, sw),
          (Category.arcs, arcsMsgs fsa1 fsa2),
          (Category.arc_weights, arcWeightsMsgs fsa1 fsa2)]).filter
          (fun p => !p.2.isEmpty),
      title := title,
      maxwidth := 80 }

/-- `fsa_structurally_equal` (lines 191-203). -/
def fsa_structurally_equal (fsa1 fsa2 : FSA SR St Sy W) : Option Bool :=
  (fsa_structural_equality_report fsa1 fsa2 none).map Report.structurally_equal

/-- The key set of `report_sections` (`set(self.report_sections.keys())`). -/
def reportKeys (r : Report SR St Sy W) : Finset Category :=
  (r.report_sections.map Prod.fst).toFinset

/-- `self.report_sections[key]` for a report, totalised with the empty
list for an absent key (the Python `__eq__` only accesses present keys). -/
def sectionMsgs (r : Report SR St Sy W) (c : Category) : List (Msg SR St Sy W) :=
  (dictLookup r.report_sections c).getD []

/-- `_FSAStructuralEqualityReport.__eq__` on two reports (lines 65-70):
equal key sets, and per key of the first report, equal message sets. -/
def reportEq (r1 r2 : Report SR St Sy W) : Prop :=
  reportKeys r1 = reportKeys r2 ∧
    ∀ c ∈ reportKeys r1, (sectionMsgs r1 c).toFinset = (sectionMsgs r2 c).toFinset

instance (r1 r2 : Report SR St Sy W) : Decidable (reportEq r1 r2) := by
  unfold reportEq; infer_instance

/-- An arbitrary Python value handed to `__eq__` as `other`: a report, or
any non-report value. -/
inductive PyValue (SR St Sy W : Type) where
  | report : Report SR St Sy W → PyValue SR St Sy W
  | int : Int → PyValue SR St Sy W
  | str : String → PyValue SR St Sy W
  | noneVal : PyValue SR St Sy W
deriving DecidableEq

/-- `_FSAStructuralEqualityReport.__eq__` (lines 62-70) including the
`isinstance` guard: a non-report operand compares unequal. -/
def reportEqValue (r : Report SR St Sy W) (v : PyValue SR St Sy W) : Bool :=
  match v with
  | PyValue.report r2 => decide (reportEq r r2)
  | _ => false

def sa : Symbol := Symbol.sym "a"

def sb : Symbol := Symbol.sym "b"

def sc : Symbol := Symbol.sym "c"

def sd : Symbol := Symbol.sym "d"

/-- Modelled from the spec: the common input alphabet of the two test
acceptors.  Their rayuela constructors (`FSA(R=Boolean)`, `add_states`,
`set_I`, `set_F`, `add_arc` and the derivation of `Sigma`) live outside the
comparison core; the §8 scenario lists "states", "arcs" and "arc_weights"
as the only differing categories, so both acceptors carry one shared input
alphabet. -/
def testAlphabet : Finset Symbol := {sa, sb, sc, sd}

/-- Modelled from the spec: the acceptor `A1` of the §8 scenario
(`_make_fsa1` in the test file): states `{0,1,2}`, initial state `0` and
final state `2` with Boolean weight `true`, λ/ρ totalised over `Q` with the
Boolean zero (`false`) elsewhere, and the ten listed arcs, all weighted
`true`.  The transition table follows the `add_arc` insertion order. -/
def A1 : FSA SemiringId Nat Symbol Bool :=
  { R := SemiringId.boolean
    Sigma := testAlphabet
    Omega := none
    Q := [0, 1, 2]
    lam := [(0, true), (1, false), (2, false)]
    ρ := [(0, false), (1, false), (2, true)]
    δ := [(0, [(Label.single Symbol.eps, [(0, true)]),
               (Label.single sb, [(0, true)]),
               (Label.single sc, [(0, true)]),
               (Label.single sa, [(2, true)])]),
          (2, [(Label.single sa, [(0, true)]),
               (Label.single sc, [(1, true)])]),
          (1, [(Label.single sa, [(0, true)]),
               (Label.single Symbol.eps, [(2, true)]),
               (Label.single sb, [(2, true)]),
               (Label.single sc, [(2, true)])])] }

/-- Modelled from the spec: the acceptor `A2` of the §8 scenario
(`_make_fsa2` in the test file): states `{0,1,2,3}`, same initial/final
weights, the weight flip at `(2,a,0)` to `false`, the added arc
`(1,d,3,true)`, and no `(0,b,0)` arc. -/
def A2 : FSA SemiringId Nat Symbol Bool :=
  { R := SemiringId.boolean
    Sigma := testAlphabet
    Omega := none
    Q := [0, 1, 2, 3]
    lam := [(0, true), (1, false), (2, false), (3, false)]
    ρ := [(0, false), (1, false), (2, true), (3, false)]
    δ := [(0, [(Label.single Symbol.eps, [(0, true)]),
               (Label.single sc, [(0, true)]),
               (Label.single sa, [(2, true)])]),
          (2, [(Label.single sa, [(0, false)]),
               (Label.single sc, [(1, true)])]),
          (1, [(Label.single sa, [(0, true)]),
               (Label.single Symbol.eps, [(2, true)]),
               (Label.single sb, [(2, true)]),
               (Label.single sc, [(2, true)]),
               (Label.single sd, [(3, true)])])] }

/-- The report of `fsa_structural_equality_report A1 A2 None`: categories
"states" (state 3 missing from A1), "arcs" ((1,d,3) missing from A1,
(0,b,0) missing from A2) and "arc_weights" ((2,a,0): true vs false). -/
def reportA1A2 : Report SemiringId Nat Symbol Bool :=
  { report_sections :=
      [(Category.states, [Msg.statesIn2Not1 {3}]),
       (Category.arcs, [Msg.missingArcs1 {(1, Label.single sd, 3)},
                        Msg.missingArcs2 {(0, Label.single sb, 0)}]),
       (Category.arc_weights,
        [Msg.arcWeightMismatch (2, Label.single sa, 0) true false])]
    title := none
    maxwidth := 80 }

/-- The report of `fsa_structural_equality_report cA cB None`: state 1 is
missing from `cB`, and — because the state-weight loop runs over the first
operand's full state set, not the intersection — state 1 also contributes
an initial-weight message fed by `cB`'s spurious λ entry. -/
def reportCACB : Report SemiringId Nat Symbol Bool :=
  { report_sections :=
      [(Category.states, [Msg.statesIn1Not2 {1}]),
       (Category.state_weights, [Msg.initialWeightMismatch 1 true false])]
    title := none
    maxwidth := 80 }

/-- The report of the swapped comparison `cB` vs `cA`: same verdict, with
the states message mirrored and no state-weight message (the loop now runs
over `cB`'s single state). -/
def reportCBCA : Report SemiringId Nat Symbol Bool :=
  { report_sections := [(Category.states, [Msg.statesIn2Not1 {1}])]
    title := none
    maxwidth := 80 }

/-- A one-state acceptor with no arcs (no output alphabet exposed). -/
def exAcceptor : FSA SemiringId Nat Symbol Bool :=
  { R := SemiringId.boolean, Sigma := ∅, Omega := none, Q := [0],
    lam := [(0, true)], ρ := [(0, true)], δ := [] }

/-- A one-state transducer with no arcs, agreeing with `exAcceptor` on
semiring, input alphabet, states and state weights, but exposing an output
alphabet. -/
def exTransducer : FSA SemiringId Nat Symbol Bool :=
  { R := SemiringId.boolean, Sigma := ∅, Omega := some ∅, Q := [0],
    lam := [(0, true)], ρ := [(0, true)], δ := [] }

/-- A malformed operand: state 0 is nominally in `Q` but its λ/ρ mappings
have no entry for it. -/
def badOperand : FSA SemiringId Nat Symbol Bool :=
  { R := SemiringId.boolean, Sigma := ∅, Omega := none, Q := [0],
    lam := [], ρ := [], δ := [] }

/-- First operand for the state-weight-domain counterexample: two states,
both with λ/ρ entries. -/
def cA : FSA SemiringId Nat Symbol Bool :=
  { R := SemiringId.boolean, Sigma := ∅, Omega := none, Q := [0, 1],
    lam := [(0, true), (1, true)], ρ := [(0, false), (1, false)], δ := [] }

/-- Second operand for the state-weight-domain counterexample: state 1 is
NOT in its state set, yet its λ mapping happens to carry an entry for 1
with a different weight than `cA`'s. -/
def cB : FSA SemiringId Nat Symbol Bool :=
  { R := SemiringId.boolean, Sigma := ∅, Omega := none, Q := [0],
    lam := [(0, true), (1, false)], ρ := [(0, false), (1, false)], δ := [] }

/-- The empty report (the one produced for structurally equal operands). -/
def emptyReport : Report SemiringId Nat Symbol Bool :=
  { report_sections := [], title := none, maxwidth := 80 }

/-- Recogniser for a "state_weights" message reporting the initial weight
of state `q`. -/
def isInitialMsgFor (q : St) : Msg SR St Sy W → Bool
  | Msg.initialWeightMismatch p _ _ => decide (p = q)
  | _ => false

/-- Recogniser for a "state_weights" message reporting the final weight of
state `q`. -/
def isFinalMsgFor (q : St) : Msg SR St Sy W → Bool
  | Msg.finalWeightMismatch p _ _ => decide (p = q)
  | _ => false

/-- Modelled from the spec: §4.2 requires the arc-weight check to be "a
hash-join keyed by identity (not a naive cross-product)".  The second
operand's arcs are indexed once into buckets keyed by the unweighted
identity; each arc of the first operand probes the index exactly once and
emits one mismatch per differing weight in its bucket. -/
def arcWeightMismatchHashJoin (arcs1 arcs2 : List (St × Label Sy × St × W)) :
    List ((St × Label Sy × St) × W × W) :=
  let index : List ((St × Label Sy × St) × List W) :=
    ((arcs2.map arcId).dedup).map fun key =>
      (key, (arcs2.filter fun a => decide (arcId a = key)).map arcW)
  (arcs1.flatMap fun a1 =>
    (((dictLookup index (arcId a1)).getD []).filter
        fun w2 => decide (arcW a1 ≠ w2)).map fun w2 =>
      (arcId a1, arcW a1, w2)).dedup

/-- Check 1 with the operand pair threaded through: reads the operands,
hands them on unchanged. -/
def semiringCheck (s : FSA SR St Sy W × FSA SR St Sy W) :
    List (Msg SR St Sy W) × (FSA SR St Sy W × FSA SR St Sy W) :=
  (semiringMsgs s.1 s.2, s)

/-- Check 2 with the operand pair threaded through. -/
def alphabetCheck (s : FSA SR St Sy W × FSA SR St Sy W) :
    List (Msg SR St Sy W) × (FSA SR St Sy W × FSA SR St Sy W) :=
  (alphabetMsgs s.1 s.2, s)

/-- Check 3 with the operand pair threaded through. -/
def statesCheck (s : FSA SR St Sy W × FSA SR St Sy W) :
    List (Msg SR St Sy W) × (FSA SR St Sy W × FSA SR St Sy W) :=
  (statesMsgs s.1 s.2, s)

/-- Check 4 with the operand pair threaded through; the λ/ρ lookups are
reads of the no-default mappings (they raise on absence, they never insert
a default). -/
def stateWeightsCheck (s : FSA SR St Sy W × FSA SR St Sy W) :
    Option (List (Msg SR St Sy W)) × (FSA SR St Sy W × FSA SR St Sy W) :=
  (stateWeightMsgs s.1 s.2 s.1.Q, s)

/-- Check 5 with the operand pair threaded through. -/
def arcsCheck (s : FSA SR St Sy W × FSA SR St Sy W) :
    List (Msg SR St Sy W) × (FSA SR St Sy W × FSA SR St Sy W) :=
  (arcsMsgs s.1 s.2, s)

/-- Check 6 with the operand pair threaded through. -/
def arcWeightsCheck (s : FSA SR St Sy W × FSA SR St Sy W) :
    List (Msg SR St Sy W) × (FSA SR St Sy W × FSA SR St Sy W) :=
  (arcWeightsMsgs s.1 s.2, s)

/-- `fsa_structural_equality_report` with the operand pair threaded through
each of its six checks in source order, returning the final operand states
alongside the report. -/
def fsa_structural_equality_report_threaded (fsa1 fsa2 : FSA SR St Sy W)
    (title : Option String) :
    Option (Report SR St Sy W) × (FSA SR St Sy W × FSA SR St Sy W) :=
  let s0 := (fsa1, fsa2)
  let (m1, s1) := semiringCheck s0
  let (m2, s2) := alphabetCheck s1
  let (m3, s3) := statesCheck s2
  let (msw, s4) := stateWeightsCheck s3
  let (m5, s5) := arcsCheck s4
  let (m6, s6) := arcWeightsCheck s5
  (msw.map fun sw =>
    { report_sections :=
        ([(Category.semiring, m1), (Category.alphabet, m2), (Category.states, m3),
          (Category.state_weights, sw), (Category.arcs, m5),
          (Category.arc_weights, m6)]).filter (fun p => !p.2.isEmpty),
      title := title, maxwidth := 80 }, s6)

/-!
## Characterisations of the individual checks

Each lemma states exactly when a check contributes no message, in terms of
the operands' fields.
-/

theorem semiringMsgs_eq_nil_iff (fsa1 fsa2 : FSA SR St Sy W) :
    semiringMsgs fsa1 fsa2 = [] ↔ fsa1.R = fsa2.R := by
  by_cases h : fsa1.R = fsa2.R <;> simp [semiringMsgs, h]

theorem alphabetMsgs_eq_nil_iff (fsa1 fsa2 : FSA SR St Sy W) :
    alphabetMsgs fsa1 fsa2 = [] ↔
      (fsa1.Sigma = fsa2.Sigma ∧
        ∀ o1 o2, fsa1.Omega = some o1 → fsa2.Omega = some o2 → o1 = o2) := by
  rcases h1 : fsa1.Omega with _ | o1 <;> rcases h2 : fsa2.Omega with _ | o2 <;>
    by_cases hs : fsa1.Sigma = fsa2.Sigma <;>
      simp [alphabetMsgs, h1, h2, hs]

theorem statesMsgs_eq_nil_iff (fsa1 fsa2 : FSA SR St Sy W) :
    statesMsgs fsa1 fsa2 = [] ↔ fsa1.Q.toFinset = fsa2.Q.toFinset := by
  constructor
  · intro h
    have h1 : fsa1.Q.toFinset \ fsa2.Q.toFinset = ∅ := by
      by_contra hc; simp [statesMsgs, hc] at h
    have h2 : fsa2.Q.toFinset \ fsa1.Q.toFinset = ∅ := by
      by_contra hc; simp [statesMsgs, hc] at h
    exact Finset.Subset.antisymm (Finset.sdiff_eq_empty_iff_subset.mp h1)
      (Finset.sdiff_eq_empty_iff_subset.mp h2)
  · intro h; simp [statesMsgs, h]

theorem arcsMsgs_eq_nil_iff (fsa1 fsa2 : FSA SR St Sy W) :
    arcsMsgs fsa1 fsa2 = [] ↔ _unweighted (_arcs fsa1) = _unweighted (_arcs fsa2) := by
  constructor
  · intro h
    have h1 : _unweighted (_arcs fsa2) \ _unweighted (_arcs fsa1) = ∅ := by
      by_contra hc; simp [arcsMsgs, hc] at h
    have h2 : _unweighted (_arcs fsa1) \ _unweighted (_arcs fsa2) = ∅ := by
      by_contra hc; simp [arcsMsgs, hc] at h
    exact Finset.Subset.antisymm (Finset.sdiff_eq_empty_iff_subset.mp h2)
      (Finset.sdiff_eq_empty_iff_subset.mp h1)
  · intro h; simp [arcsMsgs, h]

theorem arcWeightsMsgs_eq_nil_iff (fsa1 fsa2 : FSA SR St Sy W) :
    arcWeightsMsgs fsa1 fsa2 = [] ↔
      ∀ x ∈ _arcs fsa1, ∀ y ∈ _arcs fsa2, arcId x = arcId y → arcW x = arcW y := by
  unfold arcWeightsMsgs _arc_weight_mismatch
  rw [List.map_eq_nil_iff, List.dedup_eq_nil, List.flatMap_eq_nil_iff]
  constructor
  · intro h x hx y hy hid
    have := List.filterMap_eq_nil_iff.mp (h x hx) y hy
    by_contra hw
    rw [if_pos ⟨hid, hw⟩] at this
    exact Option.noConfusion this
  · intro h x hx
    rw [List.filterMap_eq_nil_iff]
    intro y hy
    rw [if_neg]
    rintro ⟨hid, hw⟩
    exact hw (h x hx y hy hid)

theorem stateWeightMsgs_eq_some_nil_iff (fsa1 fsa2 : FSA SR St Sy W) (l : List St) :
    stateWeightMsgs fsa1 fsa2 l = some [] ↔
      ∀ q ∈ l, ∃ lw rv,
        dictLookup fsa1.lam q = some lw ∧ dictLookup fsa2.lam q = some lw ∧
        dictLookup fsa1.ρ q = some rv ∧ dictLookup fsa2.ρ q = some rv := by
  induction l with
  | nil => simp [stateWeightMsgs]
  | cons q qs ih =>
    rw [List.forall_mem_cons]
    constructor
    · intro h
      cases hl1 : dictLookup fsa1.lam q <;> cases hl2 : dictLookup fsa2.lam q <;>
        cases hr1 : dictLookup fsa1.ρ q <;> cases hr2 : dictLookup fsa2.ρ q <;>
          simp only [stateWeightMsgs, hl1, hl2, hr1, hr2, Option.some_bind,
            Option.none_bind] at h <;>
          try exact Option.noConfusion h
      rename_i l1 l2 r1 r2
      rw [Option.map_eq_some'] at h
      obtain ⟨rest, hrest, heq⟩ := h
      have h12 : l1 = l2 := by
        by_contra hne
        rw [if_pos hne] at heq
        exact List.noConfusion heq
      rw [if_neg (fun hc => hc h12), List.nil_append] at heq
      have h34 : r1 = r2 := by
        by_contra hne
        rw [if_pos hne] at heq
        exact List.noConfusion heq
      rw [if_neg (fun hc => hc h34), List.nil_append] at heq
      subst heq
      exact ⟨⟨l1, r1, rfl, congrArg some h12.symm, rfl, congrArg some h34.symm⟩,
        ih.mp hrest⟩
    · rintro ⟨⟨lw, rv, h1, h2, h3, h4⟩, htail⟩
      have hqs : stateWeightMsgs fsa1 fsa2 qs = some [] := ih.mpr htail
      simp [stateWeightMsgs, h1, h2, h3, h4, hqs]

theorem stateWeightMsgs_isSome_iff (fsa1 fsa2 : FSA SR St Sy W) (l : List St) :
    (stateWeightMsgs fsa1 fsa2 l).isSome = true ↔
      ∀ q ∈ l, (dictLookup fsa1.lam q).isSome ∧ (dictLookup fsa2.lam q).isSome ∧
        (dictLookup fsa1.ρ q).isSome ∧ (dictLookup fsa2.ρ q).isSome := by
  induction l with
  | nil => simp [stateWeightMsgs]
  | cons q qs ih =>
    cases hl1 : dictLookup fsa1.lam q <;> cases hl2 : dictLookup fsa2.lam q <;>
      cases hr1 : dictLookup fsa1.ρ q <;> cases hr2 : dictLookup fsa2.ρ q <;>
        simp [stateWeightMsgs, hl1, hl2, hr1, hr2, ih]

/-!
## Report-level characterisations
-/

theorem report_sections_eq {fsa1 fsa2 : FSA SR St Sy W} {t : Option String}
    {r : Report SR St Sy W}
    (h : fsa_structural_equality_report fsa1 fsa2 t = some r) :
    ∃ sw, stateWeightMsgs fsa1 fsa2 fsa1.Q = some sw ∧
      r.report_sections =
        ([(Category.semiring, semiringMsgs fsa1 fsa2),
          (Category.alphabet, alphabetMsgs fsa1 fsa2),
          (Category.states, statesMsgs fsa1 fsa2),
          (Category.state_weights, sw),
          (Category.arcs, arcsMsgs fsa1 fsa2),
          (Category.arc_weights, arcWeightsMsgs fsa1 fsa2)]).filter
          (fun p => !p.2.isEmpty) := by
  rcases Option.map_eq_some'.mp h with ⟨sw, hsw, hr⟩
  exact ⟨sw, hsw, by rw [← hr]⟩

theorem report_sections_nil_iff {fsa1 fsa2 : FSA SR St Sy W} {t : Option String}
    {r : Report SR St Sy W}
    (h : fsa_structural_equality_report fsa1 fsa2 t = some r) :
    r.report_sections = [] ↔
      (semiringMsgs fsa1 fsa2 = [] ∧ alphabetMsgs fsa1 fsa2 = [] ∧
       statesMsgs fsa1 fsa2 = [] ∧ stateWeightMsgs fsa1 fsa2 fsa1.Q = some [] ∧
       arcsMsgs fsa1 fsa2 = [] ∧ arcWeightsMsgs fsa1 fsa2 = []) := by
  rcases report_sections_eq h with ⟨sw, hsw, hr⟩
  rw [hr, hsw, List.filter_eq_nil_iff]
  simp only [List.mem_cons, List.not_mem_nil, or_false, forall_eq_or_imp, forall_eq,
    Bool.not_eq_true', Bool.not_not, List.isEmpty_iff, List.isEmpty_eq_false,
    Bool.not_eq_false, Option.some_inj]
  tauto

theorem structurally_equal_true_iff (r : Report SR St Sy W) :
    r.structurally_equal = true ↔ r.report_sections = [] := by
  simp [Report.structurally_equal, List.length_eq_zero]

/-- Transfer of an empty report across the argument swap: every check's
emptiness condition is symmetric in the operands (the state-weight loop's
condition transfers because an empty states check forces equal state
sets). -/
theorem report_nil_swap {fsa1 fsa2 : FSA SR St Sy W} {t1 t2 : Option String}
    {r1 r2 : Report SR St Sy W}
    (h1 : fsa_structural_equality_report fsa1 fsa2 t1 = some r1)
    (h2 : fsa_structural_equality_report fsa2 fsa1 t2 = some r2)
    (he : r1.report_sections = []) : r2.report_sections = [] := by
  rw [report_sections_nil_iff h1] at he
  obtain ⟨hsem, halph, hst, hsw, harcs, haw⟩ := he
  rw [statesMsgs_eq_nil_iff] at hst
  rw [report_sections_nil_iff h2]
  refine ⟨?_, ?_, ?_, ?_, ?_, ?_⟩
  · rw [semiringMsgs_eq_nil_iff] at hsem ⊢
    exact hsem.symm
  · rw [alphabetMsgs_eq_nil_iff] at halph ⊢
    exact ⟨halph.1.symm, fun o1 o2 ha hb => (halph.2 o2 o1 hb ha).symm⟩
  · rw [statesMsgs_eq_nil_iff]
    exact hst.symm
  · rw [stateWeightMsgs_eq_some_nil_iff] at hsw ⊢
    intro q hq
    have hq1 : q ∈ fsa1.Q := by
      rw [← List.mem_toFinset, hst, List.mem_toFinset]
      exact hq
    obtain ⟨lw, rv, ha, hb, hc, hd⟩ := hsw q hq1
    exact ⟨lw, rv, hb, ha, hd, hc⟩
  · rw [arcsMsgs_eq_nil_iff] at harcs ⊢
    exact harcs.symm
  · rw [arcWeightsMsgs_eq_nil_iff] at haw ⊢
    intro y hy x hx hid
    exact (haw x hx y hy hid.symm).symm

/-!
## Claim theorems
-/

/-- C3: the boolean verdict of the comparison is symmetric — whenever both
orders of comparison of two matching-arity automata produce reports, those
reports agree on `structurally_equal`, even though individual messages are
directional. -/
theorem verdict_symmetric (fsa1 fsa2 : FSA SR St Sy W) (t1 t2 : Option String)
    (r1 r2 : Report SR St Sy W)
    (harity : fsa1.Omega.isSome = fsa2.Omega.isSome)
    (h1 : fsa_structural_equality_report fsa1 fsa2 t1 = some r1)
    (h2 : fsa_structural_equality_report fsa2 fsa1 t2 = some r2) :
    r1.structurally_equal = r2.structurally_equal := by
  by_cases he : r1.report_sections = []
  · rw [(structurally_equal_true_iff r1).mpr he,
      (structurally_equal_true_iff r2).mpr (report_nil_swap h1 h2 he)]
  · have he2 : r2.report_sections ≠ [] := fun hc => he (report_nil_swap h2 h1 hc)
    have b1 : r1.structurally_equal = false := by
      rw [Bool.eq_false_iff, Ne, structurally_equal_true_iff]
      exact he
    have b2 : r2.structurally_equal = false := by
      rw [Bool.eq_false_iff, Ne, structurally_equal_true_iff]
      exact he2
    rw [b1, b2]

/-- Witness for C3 at the concrete pair `cA`, `cB`, where both comparison
orders produce a report. -/
theorem verdict_symmetric_witness :
    reportCACB.structurally_equal = reportCBCA.structurally_equal :=
  verdict_symmetric cA cB none none reportCACB reportCBCA (by decide) (by decide)
    (by decide)

/-- C7: comparison is reflexive — for every well-formed automaton (λ/ρ
defined on all of `Q`, at most one weight per arc identity), comparing it
with itself yields a report with zero categories, hence
`structurally_equal` is true. -/
theorem reflexivity_report (a : FSA SR St Sy W) (t : Option String)
    (hlam : ∀ q ∈ a.Q, (dictLookup a.lam q).isSome = true)
    (hrho : ∀ q ∈ a.Q, (dictLookup a.ρ q).isSome = true)
    (hfun : ∀ x ∈ _arcs a, ∀ y ∈ _arcs a, arcId x = arcId y → arcW x = arcW y) :
    ∃ r, fsa_structural_equality_report a a t = some r ∧
      r.report_sections = [] ∧ r.structurally_equal = true := by
  have hsw : stateWeightMsgs a a a.Q = some [] := by
    rw [stateWeightMsgs_eq_some_nil_iff]
    intro q hq
    obtain ⟨lw, hlw⟩ := Option.isSome_iff_exists.mp (hlam q hq)
    obtain ⟨rv, hrv⟩ := Option.isSome_iff_exists.mp (hrho q hq)
    exact ⟨lw, rv, hlw, hlw, hrv, hrv⟩
  rcases hr : fsa_structural_equality_report a a t with _ | r
  · exfalso
    simp [fsa_structural_equality_report, hsw] at hr
  · have hnil : r.report_sections = [] := by
      rw [report_sections_nil_iff hr]
      refine ⟨?_, ?_, ?_, hsw, ?_, ?_⟩
      · simp [semiringMsgs]
      · rw [alphabetMsgs_eq_nil_iff]
        exact ⟨rfl, fun o1 o2 hx hy => by
          rw [hx] at hy
          exact Option.some_inj.mp hy⟩
      · rw [statesMsgs_eq_nil_iff]
      · rw [arcsMsgs_eq_nil_iff]
      · rw [arcWeightsMsgs_eq_nil_iff]
        exact hfun
    exact ⟨r, rfl, hnil, (structurally_equal_true_iff r).mpr hnil⟩

/-- Witness for C7 at the first test acceptor. -/
theorem reflexivity_report_witness :
    ∃ r, fsa_structural_equality_report A1 A1 none = some r ∧
      r.report_sections = [] ∧ r.structurally_equal = true :=
  reflexivity_report A1 none (by decide) (by decide) (by decide)

/-- C6: a λ or ρ mapping missing an entry for a state of the first
operand's state set makes the comparison fail fast — the error propagates
and no report (in particular no report built from a defaulted zero weight)
is produced. -/
theorem missing_weight_fails (fsa1 fsa2 : FSA SR St Sy W) (t : Option String)
    (q : St) (hq : q ∈ fsa1.Q)
    (hmiss : dictLookup fsa1.lam q = none ∨ dictLookup fsa2.lam q = none ∨
      dictLookup fsa1.ρ q = none ∨ dictLookup fsa2.ρ q = none) :
    fsa_structural_equality_report fsa1 fsa2 t = none := by
  cases hsw : stateWeightMsgs fsa1 fsa2 fsa1.Q with
  | none => simp [fsa_structural_equality_report, hsw]
  | some ms =>
    exfalso
    have hs := (stateWeightMsgs_isSome_iff fsa1 fsa2 fsa1.Q).mp
      (by rw [hsw]; rfl) q hq
    rcases hmiss with h | h | h | h <;> rw [h] at hs <;> simp at hs

/-- Witness for C6: comparing against an operand whose λ has no entry for
state 0 errors out. -/
theorem missing_weight_fails_witness :
    fsa_structural_equality_report exAcceptor badOperand none = none :=
  missing_weight_fails exAcceptor badOperand none 0 (by decide)
    (Or.inr (Or.inl (by decide)))

/-- C9: the divergent-acceptor scenario — comparing A1 with A2 yields
exactly the report with categories "states" ({3} missing from A1), "arcs"
((1,d,3) missing from A1 and (0,b,0) missing from A2) and "arc_weights"
((2,a,0): true vs false), and the verdict is not structurally equal. -/
theorem divergent_acceptors_scenario :
    fsa_structural_equality_report A1 A2 none = some reportA1A2 ∧
    reportA1A2.structurally_equal = false := by
  constructor
  · decide
  · rfl

/-- C10: report `__eq__` against any non-report value returns `False` (it
never considers such a value equal), for every report. -/
theorem reportEqValue_non_report (r : Report SR St Sy W)
    (v : PyValue SR St Sy W) (hv : ∀ r2, v ≠ PyValue.report r2) :
    reportEqValue r v = false := by
  cases v with
  | report r2 => exact absurd rfl (hv r2)
  | int n => rfl
  | str s => rfl
  | noneVal => rfl

/-- Witness for C10: the empty report compared with the integer 0. -/
theorem reportEqValue_non_report_witness :
    reportEqValue emptyReport (PyValue.int 0) = false :=
  reportEqValue_non_report emptyReport (PyValue.int 0)
    (fun r2 h => PyValue.noConfusion h)

/-- C5: the comparison never mutates either operand — threading the
operand pair through all six checks returns both automata unchanged, while
computing the same report as `fsa_structural_equality_report`. -/
theorem report_preserves_operands (fsa1 fsa2 : FSA SR St Sy W)
    (t : Option String) :
    (fsa_structural_equality_report_threaded fsa1 fsa2 t).2 = (fsa1, fsa2) ∧
    (fsa_structural_equality_report_threaded fsa1 fsa2 t).1 =
      fsa_structural_equality_report fsa1 fsa2 t :=
  ⟨rfl, rfl⟩

/-- Message counts of the state-weight loop over a duplicate-free
iteration list `l`: a state contributes exactly one initial-weight message
iff it lies in `l` and the λ lookups differ, and exactly one final-weight
message iff it lies in `l` and the ρ lookups differ; any state outside `l`
contributes nothing. -/
theorem stateWeightMsgs_counts (fsa1 fsa2 : FSA SR St Sy W) (l : List St)
    (ms : List (Msg SR St Sy W)) (q : St) (hnd : l.Nodup)
    (hsw : stateWeightMsgs fsa1 fsa2 l = some ms) :
    ((ms.filter (isInitialMsgFor q)).length =
      if q ∈ l ∧ dictLookup fsa1.lam q ≠ dictLookup fsa2.lam q then 1 else 0) ∧
    ((ms.filter (isFinalMsgFor q)).length =
      if q ∈ l ∧ dictLookup fsa1.ρ q ≠ dictLookup fsa2.ρ q then 1 else 0) := by
  induction l generalizing ms with
  | nil =>
    simp only [stateWeightMsgs, Option.some_inj] at hsw
    subst hsw
    simp
  | cons p ps ih =>
    obtain ⟨hp, hnd2⟩ := List.nodup_cons.mp hnd
    cases hl1 : dictLookup fsa1.lam p <;> cases hl2 : dictLookup fsa2.lam p <;>
      cases hr1 : dictLookup fsa1.ρ p <;> cases hr2 : dictLookup fsa2.ρ p <;>
        simp only [stateWeightMsgs, hl1, hl2, hr1, hr2, Option.some_bind,
          Option.none_bind] at hsw <;>
        try exact Option.noConfusion hsw
    rename_i l1 l2 r1 r2
    rw [Option.map_eq_some'] at hsw
    obtain ⟨rest, hrest, heq⟩ := hsw
    obtain ⟨c1, c2⟩ := ih rest hnd2 hrest
    subst heq
    have hmid_init :
        ((if r1 ≠ r2 then [Msg.finalWeightMismatch p r1 r2] else
          ([] : List (Msg SR St Sy W))).filter (isInitialMsgFor q)).length = 0 := by
      by_cases h34 : r1 ≠ r2 <;> simp [h34, isInitialMsgFor]
    have hfst_fin :
        ((if l1 ≠ l2 then [Msg.initialWeightMismatch p l1 l2] else
          ([] : List (Msg SR St Sy W))).filter (isFinalMsgFor q)).length = 0 := by
      by_cases h12 : l1 ≠ l2 <;> simp [h12, isFinalMsgFor]
    constructor
    · rw [List.filter_append, List.filter_append, List.length_append,
        List.length_append, hmid_init, c1]
      by_cases hpq : p = q
      · subst hpq
        have htail : (if p ∈ ps ∧ dictLookup fsa1.lam p ≠ dictLookup fsa2.lam p
            then 1 else 0) = 0 := if_neg (fun hc => hp hc.1)
        by_cases h12 : l1 = l2
        · have hfst : ((if l1 ≠ l2 then [Msg.initialWeightMismatch p l1 l2] else
              ([] : List (Msg SR St Sy W))).filter (isInitialMsgFor p)).length = 0 := by
            simp [h12]
          have hrhs : (if p ∈ p :: ps ∧
              dictLookup fsa1.lam p ≠ dictLookup fsa2.lam p then 1 else 0) = 0 :=
            if_neg (fun hc => hc.2 (by rw [hl1, hl2, h12]))
          rw [hfst, htail, hrhs]
        · have hfst : ((if l1 ≠ l2 then [Msg.initialWeightMismatch p l1 l2] else
              ([] : List (Msg SR St Sy W))).filter (isInitialMsgFor p)).length = 1 := by
            simp [h12, isInitialMsgFor]
          have hrhs : (if p ∈ p :: ps ∧
              dictLookup fsa1.lam p ≠ dictLookup fsa2.lam p then 1 else 0) = 1 :=
            if_pos ⟨List.mem_cons_self p ps, by
              rw [hl1, hl2]
              exact fun hc => h12 (Option.some_inj.mp hc)⟩
          rw [hfst, htail, hrhs]
      · have hiff : (q ∈ p :: ps ∧
            dictLookup fsa1.lam q ≠ dictLookup fsa2.lam q) ↔
            (q ∈ ps ∧ dictLookup fsa1.lam q ≠ dictLookup fsa2.lam q) :=
          and_congr_left' (by
            rw [List.mem_cons]
            exact or_iff_right (fun h => hpq h.symm))
        have hfst : ((if l1 ≠ l2 then [Msg.initialWeightMismatch p l1 l2] else
            ([] : List (Msg SR St Sy W))).filter (isInitialMsgFor q)).length = 0 := by
          by_cases h12 : l1 ≠ l2 <;> simp [h12, isInitialMsgFor, hpq]
        rw [hfst, if_congr hiff rfl rfl]
        simp
    · rw [List.filter_append, List.filter_append, List.length_append,
        List.length_append, hfst_fin, c2]
      by_cases hpq : p = q
      · subst hpq
        have htail : (if p ∈ ps ∧ dictLookup fsa1.ρ p ≠ dictLookup fsa2.ρ p
            then 1 else 0) = 0 := if_neg (fun hc => hp hc.1)
        by_cases h34 : r1 = r2
        · have hmid : ((if r1 ≠ r2 then [Msg.finalWeightMismatch p r1 r2] else
              ([] : List (Msg SR St Sy W))).filter (isFinalMsgFor p)).length = 0 := by
            simp [h34]
          have hrhs : (if p ∈ p :: ps ∧
              dictLookup fsa1.ρ p ≠ dictLookup fsa2.ρ p then 1 else 0) = 0 :=
            if_neg (fun hc => hc.2 (by rw [hr1, hr2, h34]))
          rw [hmid, htail, hrhs]
        · have hmid : ((if r1 ≠ r2 then [Msg.finalWeightMismatch p r1 r2] else
              ([] : List (Msg SR St Sy W))).filter (isFinalMsgFor p)).length = 1 := by
            simp [h34, isFinalMsgFor]
          have hrhs : (if p ∈ p :: ps ∧
              dictLookup fsa1.ρ p ≠ dictLookup fsa2.ρ p then 1 else 0) = 1 :=
            if_pos ⟨List.mem_cons_self p ps, by
              rw [hr1, hr2]
              exact fun hc => h34 (Option.some_inj.mp hc)⟩
          rw [hmid, htail, hrhs]
      · have hiff : (q ∈ p :: ps ∧
            dictLookup fsa1.ρ q ≠ dictLookup fsa2.ρ q) ↔
            (q ∈ ps ∧ dictLookup fsa1.ρ q ≠ dictLookup fsa2.ρ q) :=
          and_congr_left' (by
            rw [List.mem_cons]
            exact or_iff_right (fun h => hpq h.symm))
        have hmid : ((if r1 ≠ r2 then [Msg.finalWeightMismatch p r1 r2] else
            ([] : List (Msg SR St Sy W))).filter (isFinalMsgFor q)).length = 0 := by
          by_cases h34 : r1 ≠ r2 <;> simp [h34, isFinalMsgFor, hpq]
        rw [hmid, if_congr hiff rfl rfl]
        simp

/-- C1 counterexample: the state-weight check does NOT run over the
intersection `Q_a ∩ Q_b`.  State 1 lies in `cA.Q` but not in `cB.Q`, yet it
contributes an initial-weight message (fed by `cB`'s λ entry for a state
outside its own state set), so a state outside the intersection does
contribute a "state_weights" message. -/
theorem state_weight_domain_counterexample :
    (1 ∈ cA.Q ∧ 1 ∉ cB.Q) ∧
    (fsa_structural_equality_report cA cB none).map
        (fun r => sectionMsgs r Category.state_weights) =
      some [Msg.initialWeightMismatch 1 true false] := by
  decide

/-- C1 (amended): the state-weight loop runs over the FIRST operand's full
state set `Q_a`, not the intersection — when the loop completes, every
state of `Q_a` contributes exactly one message per differing role (initial
when the λ lookups differ, final when the ρ lookups differ), and every
state outside `Q_a` (in particular every state of `Q_b \ Q_a`) contributes
none. -/
theorem state_weight_domain_amended (fsa1 fsa2 : FSA SR St Sy W)
    (ms : List (Msg SR St Sy W)) (q : St) (hnd : fsa1.Q.Nodup)
    (hsw : stateWeightMsgs fsa1 fsa2 fsa1.Q = some ms) :
    ((ms.filter (isInitialMsgFor q)).length =
      if q ∈ fsa1.Q ∧ dictLookup fsa1.lam q ≠ dictLookup fsa2.lam q
      then 1 else 0) ∧
    ((ms.filter (isFinalMsgFor q)).length =
      if q ∈ fsa1.Q ∧ dictLookup fsa1.ρ q ≠ dictLookup fsa2.ρ q
      then 1 else 0) :=
  stateWeightMsgs_counts fsa1 fsa2 fsa1.Q ms q hnd hsw

/-- Witness for the amended C1 at `cA`/`cB` and state 1. -/
theorem state_weight_domain_amended_witness :
    ((([Msg.initialWeightMismatch 1 true false] :
        List (Msg SemiringId Nat Symbol Bool)).filter (isInitialMsgFor 1)).length =
      if 1 ∈ cA.Q ∧ dictLookup cA.lam 1 ≠ dictLookup cB.lam 1 then 1 else 0) ∧
    ((([Msg.initialWeightMismatch 1 true false] :
        List (Msg SemiringId Nat Symbol Bool)).filter (isFinalMsgFor 1)).length =
      if 1 ∈ cA.Q ∧ dictLookup cA.ρ 1 ≠ dictLookup cB.ρ 1 then 1 else 0) :=
  state_weight_domain_amended cA cB [Msg.initialWeightMismatch 1 true false] 1
    (by decide) (by decide)

/-- C2 counterexample: an acceptor and a transducer that agree on semiring,
input alphabet, states and state weights and both have no arcs compare
structurally EQUAL — the report has no category, refuting "never
structurally equal". -/
theorem acceptor_transducer_counterexample :
    exAcceptor.Omega = none ∧ exTransducer.Omega.isSome = true ∧
    (fsa_structural_equality_report exAcceptor exTransducer none).map
        Report.structurally_equal = some true := by
  decide

/-- C2 (amended): comparing an acceptor to a transducer CAN be structurally
equal — the output-alphabet check requires both operands to expose an
output alphabet, so an acceptor and a transducer agreeing on semiring,
input alphabet, state set and state weights, both with empty transition
tables, produce a report with no category. -/
theorem acceptor_transducer_amended (a t : FSA SR St Sy W)
    (title : Option String) (hA : a.Omega = none) (hT : t.Omega.isSome = true)
    (hR : a.R = t.R) (hS : a.Sigma = t.Sigma) (hQ : a.Q.toFinset = t.Q.toFinset)
    (hw : ∀ q ∈ a.Q, ∃ lw rv,
      dictLookup a.lam q = some lw ∧ dictLookup t.lam q = some lw ∧
      dictLookup a.ρ q = some rv ∧ dictLookup t.ρ q = some rv)
    (hda : a.δ = []) (hdt : t.δ = []) :
    ∃ r, fsa_structural_equality_report a t title = some r ∧
      r.structurally_equal = true := by
  have hsw : stateWeightMsgs a t a.Q = some [] :=
    (stateWeightMsgs_eq_some_nil_iff a t a.Q).mpr hw
  have harca : _arcs a = [] := by simp [_arcs, hda]
  have harct : _arcs t = [] := by simp [_arcs, hdt]
  rcases hr : fsa_structural_equality_report a t title with _ | r
  · exfalso
    simp [fsa_structural_equality_report, hsw] at hr
  · refine ⟨r, rfl, (structurally_equal_true_iff r).mpr ?_⟩
    rw [report_sections_nil_iff hr]
    refine ⟨?_, ?_, ?_, hsw, ?_, ?_⟩
    · rw [semiringMsgs_eq_nil_iff]
      exact hR
    · rw [alphabetMsgs_eq_nil_iff]
      refine ⟨hS, fun o1 o2 hx hy => ?_⟩
      rw [hA] at hx
      exact Option.noConfusion hx
    · rw [statesMsgs_eq_nil_iff]
      exact hQ
    · rw [arcsMsgs_eq_nil_iff, harca, harct]
    · rw [arcWeightsMsgs_eq_nil_iff, harca]
      intro x hx
      exact absurd hx (List.not_mem_nil x)

/-- Witness for the amended C2 at the concrete acceptor/transducer pair. -/
theorem acceptor_transducer_amended_witness :
    ∃ r, fsa_structural_equality_report exAcceptor exTransducer none = some r ∧
      r.structurally_equal = true :=
  acceptor_transducer_amended exAcceptor exTransducer none (by decide)
    (by decide) (by decide) (by decide) (by decide) (by decide) rfl rfl

theorem dictLookup_map_self {α β : Type} [DecidableEq α] (l : List α)
    (f : α → β) (k : α) :
    dictLookup (l.map fun a => (a, f a)) k =
      if k ∈ l then some (f k) else none := by
  induction l with
  | nil => simp [dictLookup]
  | cons a l ih =>
    by_cases h : a = k
    · subst h
      simp [dictLookup]
    · simp only [List.map_cons, dictLookup, if_neg h, ih, List.mem_cons]
      rw [if_congr (or_iff_right (fun hc => h hc.symm)) rfl rfl]

theorem mem_arc_weight_mismatch_iff (arcs1 arcs2 : List (St × Label Sy × St × W))
    (x : (St × Label Sy × St) × W × W) :
    x ∈ _arc_weight_mismatch arcs1 arcs2 ↔
      ∃ a1 ∈ arcs1, ∃ a2 ∈ arcs2,
        arcId a1 = arcId a2 ∧ arcW a1 ≠ arcW a2 ∧
        x = (arcId a1, arcW a1, arcW a2) := by
  unfold _arc_weight_mismatch
  rw [List.mem_dedup, List.mem_flatMap]
  constructor
  · rintro ⟨a1, h1, hx⟩
    rw [List.mem_filterMap] at hx
    obtain ⟨a2, h2, hif⟩ := hx
    by_cases hc : arcId a1 = arcId a2 ∧ arcW a1 ≠ arcW a2
    · rw [if_pos hc] at hif
      exact ⟨a1, h1, a2, h2, hc.1, hc.2, (Option.some_inj.mp hif).symm⟩
    · rw [if_neg hc] at hif
      exact Option.noConfusion hif
  · rintro ⟨a1, h1, a2, h2, hid, hw, rfl⟩
    refine ⟨a1, h1, ?_⟩
    rw [List.mem_filterMap]
    exact ⟨a2, h2, by rw [if_pos ⟨hid, hw⟩]⟩

theorem mem_hashJoin_iff (arcs1 arcs2 : List (St × Label Sy × St × W))
    (x : (St × Label Sy × St) × W × W) :
    x ∈ arcWeightMismatchHashJoin arcs1 arcs2 ↔
      ∃ a1 ∈ arcs1, ∃ a2 ∈ arcs2,
        arcId a1 = arcId a2 ∧ arcW a1 ≠ arcW a2 ∧
        x = (arcId a1, arcW a1, arcW a2) := by
  unfold arcWeightMismatchHashJoin
  rw [List.mem_dedup, List.mem_flatMap]
  constructor
  · rintro ⟨a1, h1, hx⟩
    rw [dictLookup_map_self] at hx
    by_cases hkey : arcId a1 ∈ (arcs2.map arcId).dedup
    · rw [if_pos hkey] at hx
      simp only [Option.getD_some, List.mem_map, List.mem_filter] at hx
      obtain ⟨w2, hw2, hxeq⟩ := hx
      obtain ⟨⟨a2, ⟨h2, hid⟩, hw⟩, hne⟩ := hw2
      refine ⟨a1, h1, a2, h2, (of_decide_eq_true hid).symm, ?_, ?_⟩
      · rw [hw]
        exact of_decide_eq_true hne
      · rw [← hxeq, hw]
    · rw [if_neg hkey] at hx
      simp at hx
  · rintro ⟨a1, h1, a2, h2, hid, hne, rfl⟩
    refine ⟨a1, h1, ?_⟩
    rw [dictLookup_map_self, if_pos (by
      rw [List.mem_dedup, List.mem_map]
      exact ⟨a2, h2, hid.symm⟩)]
    simp only [Option.getD_some, List.mem_map, List.mem_filter]
    exact ⟨arcW a2, ⟨⟨a2, ⟨h2, decide_eq_true hid.symm⟩, rfl⟩,
      decide_eq_true hne⟩, rfl⟩

/-- C4: the spec's hash-join keyed by the unweighted arc identity computes
exactly the same set of `(identity, w1, w2)` mismatches as the source's
full pairwise comparison over all arc pairs (`_arc_weight_mismatch`). -/
theorem arc_weight_hash_join_equiv (arcs1 arcs2 : List (St × Label Sy × St × W)) :
    (arcWeightMismatchHashJoin arcs1 arcs2).toFinset =
      (_arc_weight_mismatch arcs1 arcs2).toFinset := by
  ext x
  rw [List.mem_toFinset, List.mem_toFinset, mem_hashJoin_iff,
    mem_arc_weight_mismatch_iff]

theorem dictLookup_eq_none_of_not_mem {α β : Type} [DecidableEq α]
    (l : List (α × β)) (k : α) (h : k ∉ l.map Prod.fst) :
    dictLookup l k = none := by
  induction l with
  | nil => rfl
  | cons p l ih =>
    obtain ⟨a, b⟩ := p
    rw [List.map_cons, List.mem_cons] at h
    push_neg at h
    rw [dictLookup, if_neg (fun hc => h.1 hc.symm)]
    exact ih h.2

theorem sectionMsgs_eq_nil_of_not_mem {r : Report SR St Sy W} {c : Category}
    (hc : c ∉ reportKeys r) : sectionMsgs r c = [] := by
  unfold sectionMsgs
  rw [dictLookup_eq_none_of_not_mem]
  · rfl
  · rw [← List.mem_toFinset]
    exact hc

/-- C8: report value-equality depends only on `report_sections` (title and
maxwidth are ignored), and holds iff the category key sets match and, per
category, the message collections match as sets irrespective of order
(absent categories reading as the empty collection). -/
theorem reportEq_characterisation (r1 r2 : Report SR St Sy W)
    (t1 t2 : Option String) (w1 w2 : Nat) :
    (reportEq r1 r2 ↔
      reportEq { report_sections := r1.report_sections, title := t1, maxwidth := w1 }
        { report_sections := r2.report_sections, title := t2, maxwidth := w2 }) ∧
    (reportEq r1 r2 ↔
      (reportKeys r1 = reportKeys r2 ∧
        ∀ c, (sectionMsgs r1 c).toFinset = (sectionMsgs r2 c).toFinset)) := by
  constructor
  · exact Iff.rfl
  · constructor
    · rintro ⟨hk, hm⟩
      refine ⟨hk, fun c => ?_⟩
      by_cases hc : c ∈ reportKeys r1
      · exact hm c hc
      · rw [sectionMsgs_eq_nil_of_not_mem hc,
          sectionMsgs_eq_nil_of_not_mem (hk ▸ hc)]
    · rintro ⟨hk, hm⟩
      exact ⟨hk, fun c _ => hm c⟩

end FsaTesting
